import Mathlib

/-!
# Verification of the stability-go request pipeline

A shallow embedding, in Lean 4, of the parts of the `stability-go`
repository that the frozen claims are about:

* the retry middleware (`RetryMiddleware.RoundTrip` and `addJitter` in
  `client/middleware.go`),
* the two middleware-chain builders (`api.Chain` in `api/middleware.go`
  and the transport loop of `MiddlewareClient.Upscale`),
* the rate-limit middleware (`RateLimitMiddleware.RoundTrip`),
* the server's layered authorization (`api.New`, `WithAuth`,
  `WithIPFilter`, `WithAppIDAuth`, `getClientIP`),
* the cache fingerprint (`generateCacheKey` in `api/handlers.go`),
* the asynchronous poll/extraction logic (`PollVideoResult` and
  `PollCreativeResult` in `client/video.go`) together with a small JSON
  parser and a base64 decoder standing in for `encoding/json` and
  `encoding/base64`.

Conventions used throughout:

* Go `time.Duration` values are `Int` nanoseconds; `int64` overflow is
  made explicit through `wrap64` where it matters.
* Go `float64` arithmetic (only used by `addJitter`) is idealised as
  exact rational arithmetic; the conversion `time.Duration(x)` of a
  float to an integer truncates toward zero, modelled by `truncQ`.
* Byte slices are `List UInt8`; Go strings are Lean `String`s and
  `[]byte(s)` is the UTF-8 byte list of `s`.
* An HTTP round trip's outcome `(resp, err)` is an
  `Except String HttpResponse`: exactly one of the pair is non-nil in
  every code path the middleware handles.
-/

/-- A Go `*http.Response` as far as the middleware inspects it: a status
code plus an opaque body that lets us state that a response is returned
*unchanged*. -/
structure HttpResponse where
  status : Nat
  body : String
deriving DecidableEq, Repr

/-- The acceptance test of `RetryMiddleware.RoundTrip` (middleware.go
line 94): a round-trip outcome is accepted immediately iff the transport
error is nil and the status is below 500 and is not 429. -/
def RetryAccepts : Except String HttpResponse → Prop
  | .ok resp => resp.status < 500 ∧ resp.status ≠ 429
  | .error _ => False

instance : DecidablePred RetryAccepts := fun x =>
  match x with
  | .ok resp => inferInstanceAs (Decidable (resp.status < 500 ∧ resp.status ≠ 429))
  | .error _ => inferInstanceAs (Decidable False)

/-- The attempt loop of `RetryMiddleware.RoundTrip` (middleware.go lines
84-129).  `outcomes k` is the transport's outcome for dispatch number
`k`, `attempt` is the current value of the loop variable and `remaining`
is `maxRetries - attempt`.  The result pairs the returned
`(resp, err)` with the number of dispatches performed.

On the last attempt Go returns `(nil, err)` when `err != nil` and
`(resp, nil)` otherwise (lines 99-104); both cases are the outcome
itself, and an accepted outcome on the last attempt (line 94) is that
same value, whence the two identical branches below. -/
def retryGo (outcomes : Nat → Except String HttpResponse) :
    Nat → Nat → Except String HttpResponse × Nat
  | attempt, 0 =>
    let res := outcomes attempt
    if RetryAccepts res then (res, 1) else (res, 1)
  | attempt, r + 1 =>
    let res := outcomes attempt
    if RetryAccepts res then (res, 1)
    else
      let rest := retryGo outcomes (attempt + 1) r
      (rest.1, rest.2 + 1)

/-- `RetryMiddleware.RoundTrip` for a retrier configured with
`maxRetries`: run the attempt loop from attempt 0 with the whole retry
budget. -/
def retryRoundTrip (maxRetries : Nat) (outcomes : Nat → Except String HttpResponse) :
    Except String HttpResponse × Nat :=
  retryGo outcomes 0 maxRetries

lemma retryGo_zero (outcomes : Nat → Except String HttpResponse) (a : Nat) :
    retryGo outcomes a 0 = (outcomes a, 1) := by
  simp [retryGo]

lemma retryGo_accept {outcomes : Nat → Except String HttpResponse} {a : Nat} (r : Nat)
    (h : RetryAccepts (outcomes a)) : retryGo outcomes a r = (outcomes a, 1) := by
  cases r <;> simp [retryGo, h]

lemma retryGo_step {outcomes : Nat → Except String HttpResponse} {a : Nat} (r : Nat)
    (h : ¬ RetryAccepts (outcomes a)) :
    retryGo outcomes a (r + 1) =
      ((retryGo outcomes (a + 1) r).1, (retryGo outcomes (a + 1) r).2 + 1) := by
  simp [retryGo, h]

lemma retryGo_count_le (outcomes : Nat → Except String HttpResponse) :
    ∀ r a, (retryGo outcomes a r).2 ≤ r + 1 := by
  intro r
  induction r with
  | zero => intro a; simp [retryGo_zero]
  | succ r ih =>
    intro a
    by_cases h : RetryAccepts (outcomes a)
    · rw [retryGo_accept _ h]; omega
    · rw [retryGo_step _ h]
      have := ih (a + 1)
      simpa using Nat.add_le_add_right this 1

lemma retryGo_first_accept (outcomes : Nat → Except String HttpResponse) :
    ∀ k r a, k ≤ r → (∀ j, j < k → ¬ RetryAccepts (outcomes (a + j))) →
      RetryAccepts (outcomes (a + k)) →
      retryGo outcomes a r = (outcomes (a + k), k + 1) := by
  intro k
  induction k with
  | zero =>
    intro r a _ _ hacc
    simpa using retryGo_accept r (by simpa using hacc)
  | succ k ih =>
    intro r a hkr hprev hacc
    obtain ⟨r', rfl⟩ : ∃ r', r = r' + 1 := ⟨r - 1, by omega⟩
    have h0 : ¬ RetryAccepts (outcomes a) := by
      have := hprev 0 (by omega)
      simpa using this
    rw [retryGo_step _ h0]
    have hrec : retryGo outcomes (a + 1) r' = (outcomes (a + 1 + k), k + 1) := by
      refine ih r' (a + 1) (by omega) ?_ ?_
      · intro j hj
        have := hprev (j + 1) (by omega)
        have hidx : a + (j + 1) = a + 1 + j := by omega
        rwa [hidx] at this
      · have hidx : a + (k + 1) = a + 1 + k := by omega
        rwa [hidx] at hacc
    rw [hrec]
    have hidx : a + 1 + k = a + (k + 1) := by omega
    rw [hidx]

lemma retryGo_count_iff (outcomes : Nat → Except String HttpResponse) :
    ∀ r a k, k + 1 ≤ (retryGo outcomes a r).2 ↔
      (k ≤ r ∧ ∀ j, j < k → ¬ RetryAccepts (outcomes (a + j))) := by
  intro r
  induction r with
  | zero =>
    intro a k
    rw [retryGo_zero]
    constructor
    · intro h
      have hk : k = 0 := by omega
      subst hk
      exact ⟨le_rfl, fun j hj => absurd hj (by omega)⟩
    · intro ⟨hk, _⟩
      omega
  | succ r ih =>
    intro a k
    by_cases h : RetryAccepts (outcomes a)
    · rw [retryGo_accept _ h]
      constructor
      · intro hcount
        have hk : k = 0 := by omega
        subst hk
        exact ⟨by omega, fun j hj => absurd hj (by omega)⟩
      · intro ⟨hk, hprev⟩
        rcases Nat.eq_zero_or_pos k with hk0 | hkpos
        · omega
        · exact absurd h (by simpa using hprev 0 hkpos)
    · rw [retryGo_step _ h]
      rcases Nat.eq_zero_or_pos k with hk0 | hkpos
      · subst hk0
        simp only [Nat.le_zero]
        constructor
        · intro _
          exact ⟨by omega, fun j hj => absurd hj (by omega)⟩
        · intro _
          have := (retryGo outcomes (a + 1) r).2
          omega
      · obtain ⟨k', rfl⟩ : ∃ k', k = k' + 1 := ⟨k - 1, by omega⟩
        have hiff := ih (a + 1) k'
        constructor
        · intro hcount
          have hcount' : k' + 1 ≤ (retryGo outcomes (a + 1) r).2 := by
            simp only at hcount
            omega
          obtain ⟨hk'r, hprev'⟩ := hiff.mp hcount'
          refine ⟨by omega, ?_⟩
          intro j hj
          rcases Nat.eq_zero_or_pos j with hj0 | hjpos
          · subst hj0; simpa using h
          · obtain ⟨j', rfl⟩ : ∃ j', j = j' + 1 := ⟨j - 1, by omega⟩
            have := hprev' j' (by omega)
            have hidx : a + 1 + j' = a + (j' + 1) := by omega
            rwa [hidx] at this
        · intro ⟨hk, hprev⟩
          have hcount' : k' + 1 ≤ (retryGo outcomes (a + 1) r).2 := by
            refine hiff.mpr ⟨by omega, ?_⟩
            intro j hj
            have := hprev (j + 1) (by omega)
            have hidx : a + (j + 1) = a + 1 + j := by omega
            rwa [hidx] at this
          simp only
          omega

lemma retryGo_exhausted (outcomes : Nat → Except String HttpResponse) :
    ∀ r a, (∀ j, j ≤ r → ¬ RetryAccepts (outcomes (a + j))) →
      retryGo outcomes a r = (outcomes (a + r), r + 1) := by
  intro r
  induction r with
  | zero =>
    intro a _
    simpa using retryGo_zero outcomes a
  | succ r ih =>
    intro a hall
    have h0 : ¬ RetryAccepts (outcomes a) := by simpa using hall 0 (by omega)
    rw [retryGo_step _ h0]
    have hrec : retryGo outcomes (a + 1) r = (outcomes (a + 1 + r), r + 1) := by
      refine ih (a + 1) ?_
      intro j hj
      have := hall (j + 1) (by omega)
      have hidx : a + (j + 1) = a + 1 + j := by omega
      rwa [hidx] at this
    rw [hrec]
    have hidx : a + 1 + r = a + (r + 1) := by omega
    rw [hidx]

/-- C2. For a retrier with budget `m` over any sequence of transport
outcomes: (1) the first attempt whose outcome passes the acceptance test
(error nil, status < 500 and ≠ 429) is returned as-is with no further
dispatch; (2) dispatch `k+1` happens iff the budget allows it and no
earlier attempt was accepted — so an attempt's response is accepted and
returned immediately iff the acceptance test holds; (3) at most `m + 1`
dispatches happen; (4) a downstream that always answers status 400
causes exactly one dispatch and no retry. -/
theorem retrier_acceptance_and_budget (m : Nat)
    (outcomes : Nat → Except String HttpResponse) :
    (∀ k, k ≤ m → (∀ j, j < k → ¬ RetryAccepts (outcomes j)) →
        RetryAccepts (outcomes k) →
        retryRoundTrip m outcomes = (outcomes k, k + 1))
    ∧ (∀ k, k + 1 ≤ (retryRoundTrip m outcomes).2 ↔
        (k ≤ m ∧ ∀ j, j < k → ¬ RetryAccepts (outcomes j)))
    ∧ (retryRoundTrip m outcomes).2 ≤ m + 1
    ∧ (∀ resp : HttpResponse, resp.status = 400 → (∀ k, outcomes k = .ok resp) →
        retryRoundTrip m outcomes = (.ok resp, 1)) := by
  refine ⟨?_, ?_, ?_, ?_⟩
  · intro k hk hprev hacc
    have := retryGo_first_accept outcomes k m 0 hk
      (by intro j hj; simpa using hprev j hj) (by simpa using hacc)
    simpa [retryRoundTrip] using this
  · intro k
    have := retryGo_count_iff outcomes m 0 k
    simpa [retryRoundTrip] using this
  · exact retryGo_count_le outcomes m 0
  · intro resp hstatus hconst
    have hacc : RetryAccepts (outcomes 0) := by
      rw [hconst 0]
      exact ⟨by omega, by omega⟩
    have := @retryGo_accept outcomes 0 m hacc
    rw [retryRoundTrip, this, hconst 0]

/-- Witness for C2 at a concrete configuration: budget 3, downstream
always answering status 400 — exactly one dispatch, response returned. -/
theorem retrier_acceptance_and_budget_witness :
    retryRoundTrip 3 (fun _ => .ok ⟨400, "bad request"⟩) = (.ok ⟨400, "bad request"⟩, 1) :=
  (retrier_acceptance_and_budget 3 (fun _ => .ok ⟨400, "bad request"⟩)).2.2.2
    ⟨400, "bad request"⟩ rfl (fun _ => rfl)

/-- C4. When every attempt in the budget fails the acceptance test (all
were retryable) the retrier performs all `m + 1` dispatches and returns
the final attempt's outcome *unchanged*: a transport error is returned
as that error, and a response — even one with status 500 or 429 — is
returned with a nil error; no error is synthesized from an error-status
response. -/
theorem retrier_exhausted_returns_last (m : Nat)
    (outcomes : Nat → Except String HttpResponse)
    (h : ∀ k, k ≤ m → ¬ RetryAccepts (outcomes k)) :
    retryRoundTrip m outcomes = (outcomes m, m + 1) := by
  have := retryGo_exhausted outcomes m 0 (by intro j hj; simpa using h j hj)
  simpa [retryRoundTrip] using this

/-- Witness for C4: budget 2, downstream always answering status 500 —
three dispatches, the last 500-response returned unchanged with a nil
error. -/
theorem retrier_exhausted_returns_last_witness :
    retryRoundTrip 2 (fun _ => .ok ⟨500, "boom"⟩) = (.ok ⟨500, "boom"⟩, 3) :=
  retrier_exhausted_returns_last 2 (fun _ => .ok ⟨500, "boom"⟩)
    (fun k _ => by simp [RetryAccepts])

/-! ## Retry backoff delay (middleware.go lines 111-118, 252-255)

Go computes `delay := m.baseDelay * (1 << uint(attempt))` in
`time.Duration` (= `int64` nanoseconds), caps it at `maxDelay`, and then
applies `addJitter(delay, 0.2)`.  The shift and product wrap around at
64 bits, which `wrap64` makes explicit; `addJitter` computes
`float64(d) * (1 - factor + 2*factor*rand.Float64())` and converts the
result back to `time.Duration`, truncating toward zero.  Floating-point
arithmetic is idealised as exact rational arithmetic with the random
sample `u ∈ [0, 1)` as a parameter. -/

/-- Reduce an integer to the `int64` value with the same low 64 bits
(two's complement). -/
def wrap64 (x : ℤ) : ℤ := (x + 2 ^ 63) % 2 ^ 64 - 2 ^ 63

/-- Go's `time.Duration(1) << uint(attempt)`: an `int64` shift, zero for
counts of 64 and more. -/
def goShl1 (attempt : Nat) : ℤ := if 64 ≤ attempt then 0 else wrap64 (2 ^ attempt)

/-- `m.baseDelay * (1 << uint(attempt))` with 64-bit wraparound. -/
def retryRawDelay (base : ℤ) (attempt : Nat) : ℤ := wrap64 (base * goShl1 attempt)

/-- `if delay > m.maxDelay { delay = m.maxDelay }` (middleware.go lines
113-115). -/
def retryCappedDelay (base maxDelay : ℤ) (attempt : Nat) : ℤ :=
  if maxDelay < retryRawDelay base attempt then maxDelay else retryRawDelay base attempt

/-- Go's conversion of a `float64` to an integer type truncates toward
zero. -/
def truncQ (q : ℚ) : ℤ := if 0 ≤ q then ⌊q⌋ else ⌈q⌉

/-- `addJitter` (middleware.go lines 252-255):
`time.Duration(float64(d) * (1 - factor + 2*factor*rand.Float64()))`,
with the uniform sample `rand.Float64() ∈ [0,1)` passed in as `u`. -/
def addJitter (d : ℤ) (factor u : ℚ) : ℤ := truncQ ((d : ℚ) * (1 - factor + 2 * factor * u))

/-- The full backoff delay before the next attempt, for jitter factor
0.2 (middleware.go line 118). -/
def retryDelay (base maxDelay : ℤ) (attempt : Nat) (u : ℚ) : ℤ :=
  addJitter (retryCappedDelay base maxDelay attempt) (1 / 5) u

lemma wrap64_eq_self {x : ℤ} (h0 : 0 ≤ x) (h1 : x < 2 ^ 63) : wrap64 x = x := by
  have hp : (0 : ℤ) < 2 ^ 63 := by positivity
  have h2 : (0 : ℤ) ≤ x + 2 ^ 63 := by linarith
  have h64 : (2 : ℤ) ^ 64 = 2 ^ 63 + 2 ^ 63 := by norm_num
  have h3 : x + 2 ^ 63 < 2 ^ 64 := by rw [h64]; linarith
  rw [wrap64, Int.emod_eq_of_lt h2 h3]
  ring

lemma goShl1_small {attempt : Nat} (h : attempt ≤ 62) : goShl1 attempt = 2 ^ attempt := by
  rw [goShl1, if_neg (by omega)]
  refine wrap64_eq_self (by positivity) ?_
  calc (2 : ℤ) ^ attempt ≤ 2 ^ 62 := pow_le_pow_right₀ (by norm_num) h
    _ < 2 ^ 63 := by norm_num

lemma addJitter_bounds (m : ℤ) (u : ℚ) (hm : 0 ≤ m) (hu0 : 0 ≤ u) (hu1 : u < 1) :
    (4 / 5 : ℚ) * (m : ℚ) - 1 < (addJitter m (1 / 5) u : ℚ)
    ∧ (addJitter m (1 / 5) u : ℚ) ≤ (6 / 5 : ℚ) * (m : ℚ) := by
  set q : ℚ := (m : ℚ) * (1 - 1 / 5 + 2 * (1 / 5) * u) with hq
  have hm' : (0 : ℚ) ≤ (m : ℚ) := by exact_mod_cast hm
  have hfac0 : (0 : ℚ) ≤ 1 - 1 / 5 + 2 * (1 / 5) * u := by linarith
  have hq0 : 0 ≤ q := mul_nonneg hm' hfac0
  have hjf : addJitter m (1 / 5) u = ⌊q⌋ := by rw [addJitter, truncQ, if_pos hq0]
  rw [hjf]
  have hfl : ((⌊q⌋ : ℤ) : ℚ) ≤ q := Int.floor_le q
  have hfl2 : q < ((⌊q⌋ : ℤ) : ℚ) + 1 := Int.lt_floor_add_one q
  constructor
  · have hlow : (4 / 5 : ℚ) * (m : ℚ) ≤ q := by rw [hq]; nlinarith
    linarith
  · have hhigh : q ≤ (6 / 5 : ℚ) * (m : ℚ) := by rw [hq]; nlinarith
    linarith

/-- C3, counterexample.  The claim puts the waited delay in the closed
interval `[0.8·min(max, base·2^(i-1)), 1.2·min(max, base·2^(i-1))]` for
every configuration and attempt index.  Two concrete violations:
(1) base 11ns, first retry, jitter sample 0: the code waits
`Duration(11 * 0.8) = 8` ns — the integer truncation drops below the
claimed lower endpoint `8.8`; (2) base 1ns, attempt index 63 (64th
retry): the `int64` shift `1 << 63` wraps negative, so the computed
delay is negative while the claimed lower bound is positive. -/
theorem retrier_delay_bounds_counterexample :
    retryDelay 11 1000000 0 0 = 8
    ∧ ((retryDelay 11 1000000 0 0 : ℤ) : ℚ)
        < 4 / 5 * ((min (1000000 : ℤ) (11 * 2 ^ 0) : ℤ) : ℚ)
    ∧ retryDelay 1 1000000000000000000 63 0 < 0
    ∧ (0 : ℚ) < 4 / 5 * ((min (1000000000000000000 : ℤ) (1 * 2 ^ 63) : ℤ) : ℚ) := by
  have h8 : retryDelay 11 1000000 0 0 = 8 := by
    have hcap : retryCappedDelay 11 1000000 0 = 11 := by decide
    rw [retryDelay, hcap, addJitter]
    have hq : ((11 : ℤ) : ℚ) * (1 - 1 / 5 + 2 * (1 / 5) * 0) = 44 / 5 := by norm_num
    rw [hq, truncQ, if_pos (by norm_num), Int.floor_eq_iff]
    constructor <;> norm_num
  have hneg : retryDelay 1 1000000000000000000 63 0 < 0 := by
    have hcap : retryCappedDelay 1 1000000000000000000 63 = -(2 ^ 63) := by decide
    rw [retryDelay, hcap, addJitter]
    have hq : ((-(2 ^ 63) : ℤ) : ℚ) * (1 - 1 / 5 + 2 * (1 / 5) * 0) = -(2 ^ 63) * (4 / 5) := by
      push_cast
      ring
    rw [hq, truncQ, if_neg (by norm_num)]
    have hc := Int.ceil_lt_add_one ((-(2 ^ 63) : ℚ) * (4 / 5))
    have h2 : ((⌈(-(2 ^ 63) : ℚ) * (4 / 5)⌉ : ℤ) : ℚ) < 0 := by nlinarith
    exact_mod_cast h2
  refine ⟨h8, ?_, hneg, ?_⟩
  · rw [h8]
    norm_num [min_def]
  · norm_num [min_def]

/-- C3, as amended.  For nonnegative `base` and `max`, an attempt index
small enough that `base · 2^attempt` does not overflow `int64`, and any
jitter sample `u ∈ [0, 1)`, the computed delay `d` satisfies
`0.8·m − 1 < d ≤ 1.2·m` where `m = min(max, base · 2^attempt)`: the
exact jittered value lies in `[0.8·m, 1.2·m)` and the returned
integer-nanosecond duration truncates it, so the closed-interval lower
endpoint of the original claim holds only up to that truncation. -/
theorem retrier_delay_bounds_amended (base maxDelay : ℤ) (attempt : Nat) (u : ℚ)
    (hbase : 0 ≤ base) (hmax : 0 ≤ maxDelay) (hatt : attempt ≤ 62)
    (hfit : base * 2 ^ attempt < 2 ^ 63) (hu0 : 0 ≤ u) (hu1 : u < 1) :
    (4 / 5 : ℚ) * ((min maxDelay (base * 2 ^ attempt) : ℤ) : ℚ) - 1
        < ((retryDelay base maxDelay attempt u : ℤ) : ℚ)
    ∧ ((retryDelay base maxDelay attempt u : ℤ) : ℚ)
        ≤ (6 / 5 : ℚ) * ((min maxDelay (base * 2 ^ attempt) : ℤ) : ℚ) := by
  have hraw : retryRawDelay base attempt = base * 2 ^ attempt := by
    rw [retryRawDelay, goShl1_small hatt]
    exact wrap64_eq_self (mul_nonneg hbase (by positivity)) hfit
  have hcap : retryCappedDelay base maxDelay attempt = min maxDelay (base * 2 ^ attempt) := by
    rw [retryCappedDelay, hraw, min_def]
    split_ifs <;> omega
  have hm : 0 ≤ min maxDelay (base * 2 ^ attempt) :=
    le_min hmax (mul_nonneg hbase (by positivity))
  rw [retryDelay, hcap]
  exact addJitter_bounds _ u hm hu0 hu1

/-- Witness for the amended C3 at base 100ns, max 1s, attempt index 1,
jitter sample 1/2. -/
theorem retrier_delay_bounds_amended_witness :
    (4 / 5 : ℚ) * ((min (1000000000 : ℤ) (100 * 2 ^ 1) : ℤ) : ℚ) - 1
        < ((retryDelay 100 1000000000 1 (1 / 2) : ℤ) : ℚ)
    ∧ ((retryDelay 100 1000000000 1 (1 / 2) : ℤ) : ℚ)
        ≤ (6 / 5 : ℚ) * ((min (1000000000 : ℤ) (100 * 2 ^ 1) : ℤ) : ℚ) :=
  retrier_delay_bounds_amended 100 1000000000 1 (1 / 2) (by norm_num) (by norm_num)
    (by norm_num) (by norm_num) (by norm_num) (by norm_num)

/-! ## The two middleware-chain builders (C1)

`api.Chain` (api/middleware.go lines 17-24) composes handler middleware:
it loops `i` from `len-1` down to `0` performing `next = middlewares[i](next)`.
`MiddlewareClient.Upscale` (client/middleware.go lines 185-197)
purports to build a transport chain the same way, but its loop body is
`transport = c.middleware[i]` — it *assigns* each round tripper instead
of wrapping, so after the loop only `c.middleware[0]` remains (or the
default transport when the list is empty). -/

/-- `api.Chain`: the loop `for i := len-1; i >= 0; i-- { next = middlewares[i](next) }`,
written as a left fold over the reversed list. -/
def Chain {H : Type} (middlewares : List (H → H)) (next : H) : H :=
  middlewares.reverse.foldl (fun acc m => m acc) next

/-- The transport-chain loop of `MiddlewareClient.Upscale`:
`transport = http.DefaultTransport; for i := len-1; i >= 0; i-- { transport = c.middleware[i] }`.
Each iteration discards the accumulator. -/
def clientChainTransport {T : Type} (defaultTransport : T) (middleware : List T) : T :=
  middleware.reverse.foldl (fun _ m => m) defaultTransport

/-- `api.Chain` produces the claimed nesting: `middlewares[0]` outermost,
`middlewares[N-1]` innermost, every listed middleware applied. -/
lemma Chain_eq_foldr {H : Type} (middlewares : List (H → H)) (next : H) :
    Chain middlewares next = middlewares.foldr (fun m acc => m acc) next := by
  rw [Chain, List.foldl_reverse]

lemma clientChainTransport_cons {T : Type} (d : T) (m : T) (ms : List T) :
    clientChainTransport d (m :: ms) = m := by
  rw [clientChainTransport, List.reverse_cons, List.foldl_append]
  simp

/-- C1, failing input.  Dispatching through `MiddlewareClient.Upscale`
with the two-element interceptor list `[1, 2]` (numbers standing for two
distinct round trippers) installs `1` — the first interceptor alone — as
the whole composed transport: interceptor `2` is not part of it, so the
claimed nesting `m0` around `m1` does not exist.  (The handler-level
`Chain` of api/middleware.go, by contrast, does nest: also evaluated
below on two concrete middlewares.) -/
theorem middlewareClient_chain_drops_interceptors :
    clientChainTransport (0 : ℕ) [1, 2] = 1
    ∧ (1 : ℕ) ≠ 2
    ∧ Chain [fun n : ℕ => 2 * n, fun n : ℕ => n + 1] 10 = 2 * (10 + 1) := by
  refine ⟨clientChainTransport_cons 0 1 [2], by norm_num, ?_⟩
  rw [Chain_eq_foldr]
  norm_num

/-! ## The rate limiter (C9)

`RateLimitMiddleware.RoundTrip` (middleware.go lines 28-45) holds a
mutex from entry through the timestamp update, so concurrent calls
serialize into a sequence; a trace below is that serialized sequence.
For each call the code computes `elapsed := time.Since(m.lastRequest)`,
sleeps `minInterval - elapsed` when `elapsed < minInterval`, and then
stores `time.Now()` as the new `lastRequest`.  With a monotone clock the
arrival instant (the `time.Since` read) is at least the stored
timestamp, `time.Sleep(d)` returns no earlier than `d` after it starts,
and the stored dispatch instant is taken after the sleep. -/

/-- One serialized pass through `RateLimitMiddleware.RoundTrip`:
`last` is the stored `lastRequest`, `arrival` the instant of the
`time.Since` read, and `dispatch` the instant stored back into
`lastRequest` (the dispatch start).  The relation records exactly what
the code guarantees: the clock is monotone, and the sleep (when taken)
delays the dispatch instant by at least the remainder of the interval. -/
def RateLimitStep (minInterval last arrival dispatch : ℚ) : Prop :=
  last ≤ arrival
  ∧ arrival + (if arrival - last < minInterval then minInterval - (arrival - last) else 0)
      ≤ dispatch

/-- A serialized trace of calls through one `RateLimitMiddleware`:
each entry pairs an arrival instant with the resulting dispatch instant,
and each step starts from the previous step's stored timestamp. -/
def RateLimitTrace (minInterval : ℚ) : ℚ → List (ℚ × ℚ) → Prop
  | _, [] => True
  | last, (arrival, dispatch) :: rest =>
      RateLimitStep minInterval last arrival dispatch
      ∧ RateLimitTrace minInterval dispatch rest

lemma RateLimitStep.gap {minInterval last arrival dispatch : ℚ}
    (h : RateLimitStep minInterval last arrival dispatch) :
    last + minInterval ≤ dispatch := by
  obtain ⟨hmono, hwait⟩ := h
  by_cases hlt : arrival - last < minInterval
  · rw [if_pos hlt] at hwait
    linarith
  · rw [if_neg hlt] at hwait
    push_neg at hlt
    linarith

/-- C9.  Along every serialized trace of calls through one rate limiter
with interval `minInterval`, consecutive dispatch starts are at least
`minInterval` apart (and the first dispatch is at least `minInterval`
after the initially stored timestamp).  Serialization itself is what the
mutex held across the elapsed-time computation, sleep and timestamp
update provides. -/
theorem rateLimiter_min_gap (minInterval last : ℚ) (trace : List (ℚ × ℚ))
    (h : RateLimitTrace minInterval last trace) :
    List.Chain' (fun p q : ℚ × ℚ => p.2 + minInterval ≤ q.2) trace
    ∧ (∀ p ∈ trace.head?, last + minInterval ≤ p.2) := by
  induction trace generalizing last with
  | nil => exact ⟨List.chain'_nil, by simp⟩
  | cons p rest ih =>
    obtain ⟨hstep, hrest⟩ := h
    obtain ⟨hchain, hhead⟩ := ih p.2 hrest
    refine ⟨List.chain'_cons'.mpr ⟨?_, hchain⟩, ?_⟩
    · intro q hq
      exact hhead q hq
    · intro q hq
      simp only [List.head?_cons, Option.mem_def, Option.some.injEq] at hq
      subst hq
      exact hstep.gap

/-- Witness for C9: a two-call trace with interval 5 — the second call
arrives 2 after the first dispatch and is delayed to 3 later than that,
keeping the gap at 5. -/
theorem rateLimiter_min_gap_witness :
    List.Chain' (fun p q : ℚ × ℚ => p.2 + 5 ≤ q.2) [(10, 12), (14, 17)]
    ∧ (∀ p ∈ ([(10, 12), (14, 17)] : List (ℚ × ℚ)).head?, (0 : ℚ) + 5 ≤ p.2) :=
  rateLimiter_min_gap 5 0 [(10, 12), (14, 17)]
    ⟨⟨by norm_num, by norm_num⟩, ⟨by norm_num, by norm_num⟩, trivial⟩

/-! ## The server's layered authorization (C8)

`api.New` (handlers.go lines 57-100) wraps every protected route in
`WithAuth(clientAPIKey, nil)` inside the mux, and then wraps the whole
mux in `Chain(WithLogger, WithCORS(nil), WithIPFilter(allowedIPs),
WithAppIDAuth(allowedAppIDs))`.  Handlers are modelled as functions from
a request to an outcome; logging and header side effects are dropped as
they do not affect which stage accepts or rejects. -/

/-- An inbound HTTP request as far as the authorization layers read it. -/
structure HttpRequest where
  method : String
  path : String
  headers : List (String × String)
  remoteAddr : String
deriving DecidableEq, Repr

/-- `r.Header.Get(key)`: first value for the key, or the empty string.
(Keys are used with one fixed spelling throughout, so Go's header-name
canonicalisation is the identity here.) -/
def headerGet (r : HttpRequest) (key : String) : String :=
  (((r.headers.find? (fun kv => kv.1 = key)).map (fun kv => kv.2)).getD "")

/-! String primitives used by the Go code (`strings.HasPrefix`,
`strings.HasSuffix`, `strings.Split`, `strings.TrimSpace`,
`strings.Contains` on one character), implemented over the character
list of a `String`. -/

/-- Character-list prefix test. -/
def chListPfx : List Char → List Char → Bool
  | [], _ => true
  | _ :: _, [] => false
  | a :: as, b :: bs => a = b && chListPfx as bs

/-- `strings.HasPrefix p s` (for `s` with prefix candidate `p`). -/
def strIsPfx (p s : String) : Bool := chListPfx p.data s.data

/-- `strings.HasSuffix`. -/
def strHasSuffix (suf s : String) : Bool := chListPfx suf.data.reverse s.data.reverse

/-- `strings.Contains(s, string(c))` for a one-character needle. -/
def strContainsChar (s : String) (c : Char) : Bool := s.data.contains c

/-- `strings.Split` on a one-character separator, on character lists. -/
def splitCharAux (c : Char) : List Char → List Char → List (List Char)
  | [], acc => [acc.reverse]
  | x :: xs, acc =>
    if x = c then acc.reverse :: splitCharAux c xs []
    else splitCharAux c xs (x :: acc)

/-- `strings.Split(s, string(c))` for a one-character separator. -/
def splitChar (c : Char) (s : String) : List String :=
  (splitCharAux c s.data []).map (fun cs => String.mk cs)

/-- ASCII whitespace, which is all `strings.TrimSpace` meets here. -/
def isSpaceChar (c : Char) : Bool :=
  c = ' ' || c = '\t' || c = '\n' || c = '\r' || c = '\x0b' || c = '\x0c'

/-- `strings.TrimSpace`. -/
def goTrimSpace (s : String) : String :=
  String.mk (((s.data.dropWhile isSpaceChar).reverse.dropWhile isSpaceChar).reverse)

/-- What a handler invocation produces, as far as the gate is concerned. -/
inductive HandlerResult where
  | handled (tag : String)
  | httpError (status : Nat) (message : String)
  | preflightOK
deriving DecidableEq, Repr

/-- `strings.TrimPrefix`. -/
def trimPfx (pre s : String) : String :=
  if strIsPfx pre s then String.mk (s.data.drop pre.data.length) else s

/-- The host part of `net.SplitHostPort`, with Go's error path (no colon
at all) returning the input unchanged, as `getClientIP` does. -/
def hostOfRemoteAddr (s : String) : String :=
  if strContainsChar s ':' then
    let h := String.intercalate ":" (splitChar ':' s).dropLast
    if strIsPfx "[" h && strHasSuffix "]" h then String.mk ((h.data.drop 1).dropLast) else h
  else s

/-- `getClientIP` (api/middleware.go lines 251-274): X-Forwarded-For
first (first comma-separated entry, trimmed), then X-Real-IP, then the
host part of the peer address. -/
def getClientIP (r : HttpRequest) : String :=
  let xff := headerGet r "X-Forwarded-For"
  if xff ≠ "" then goTrimSpace ((splitChar ',' xff).headD "")
  else
    let xrip := headerGet r "X-Real-IP"
    if xrip ≠ "" then xrip
    else hostOfRemoteAddr r.remoteAddr

/-- `WithAuth` (api/middleware.go lines 129-158). -/
def WithAuth (apiKey : String) (excludePaths : List String)
    (next : HttpRequest → HandlerResult) : HttpRequest → HandlerResult := fun r =>
  if excludePaths.any (fun p => strIsPfx p r.path) then next r
  else
    let auth := headerGet r "Authorization"
    if !(strIsPfx "Bearer " auth) then .httpError 401 "Unauthorized: API key is missing"
    else if trimPfx "Bearer " auth ≠ apiKey then .httpError 401 "Unauthorized: Invalid API key"
    else next r

/-- `WithIPFilter` (api/middleware.go lines 161-191). -/
def WithIPFilter (allowedIPs : List String)
    (next : HttpRequest → HandlerResult) : HttpRequest → HandlerResult := fun r =>
  if allowedIPs.isEmpty then next r
  else if allowedIPs.contains (getClientIP r) then next r
  else .httpError 403 "Forbidden: IP address not allowed"

/-- `WithAppIDAuth` (api/middleware.go lines 194-228). -/
def WithAppIDAuth (allowedAppIDs : List String)
    (next : HttpRequest → HandlerResult) : HttpRequest → HandlerResult := fun r =>
  if allowedAppIDs.isEmpty then next r
  else
    let appID := headerGet r "X-App-ID"
    if appID = "" then .httpError 403 "Forbidden: App ID is required"
    else if allowedAppIDs.contains appID then next r
    else .httpError 403 "Forbidden: Invalid App ID"

/-- `WithCORS` (api/middleware.go lines 94-126): header writes have no
effect on the gate outcome; a preflight OPTIONS request terminates with
status 200. -/
def WithCORS (_allowedOrigins : List String)
    (next : HttpRequest → HandlerResult) : HttpRequest → HandlerResult := fun r =>
  if r.method = "OPTIONS" then .preflightOK else next r

/-- `WithLogger` (api/middleware.go lines 27-57): forwards unchanged. -/
def WithLogger (next : HttpRequest → HandlerResult) : HttpRequest → HandlerResult :=
  fun r => next r

/-- The configuration `api.New` receives, restricted to what the gate
reads. -/
structure ServerConfig where
  clientAPIKey : String
  allowedIPs : List String
  allowedAppIDs : List String

/-- The route table registered in `api.New` (handlers.go lines 74-80):
every API route is wrapped in `WithAuth(clientAPIKey, nil)`; `/health`,
`/api/docs` and the root handler are not. -/
def serveMux (cfg : ServerConfig) : HttpRequest → HandlerResult := fun r =>
  if r.path = "/api/v1/upscale" then
    WithAuth cfg.clientAPIKey [] (fun _ => .handled "upscale") r
  else if strIsPfx "/api/v1/upscale/result/" r.path then
    WithAuth cfg.clientAPIKey [] (fun _ => .handled "upscaleResult") r
  else if r.path = "/api/v1/image-to-video" then
    WithAuth cfg.clientAPIKey [] (fun _ => .handled "imageToVideo") r
  else if strIsPfx "/api/v1/image-to-video/result/" r.path then
    WithAuth cfg.clientAPIKey [] (fun _ => .handled "videoResult") r
  else if r.path = "/health" then .handled "health"
  else if r.path = "/api/docs" then .handled "docs"
  else .handled "root"

/-- The composed router of `api.New` (handlers.go lines 83-88). -/
def serverRouter (cfg : ServerConfig) : HttpRequest → HandlerResult :=
  Chain [WithLogger, WithCORS [], WithIPFilter cfg.allowedIPs,
    WithAppIDAuth cfg.allowedAppIDs] (serveMux cfg)

/-- The amended ordering of the authorization stages, written out from
the spec's wording with the order corrected: IP allowlist first, then
app-id allowlist, then (for routes that carry it) the bearer check; the
first failing stage answers and nothing later runs. -/
def gateStagesSpec (cfg : ServerConfig) (r : HttpRequest) (checkBearer : Bool)
    (tag : String) : HandlerResult :=
  if cfg.allowedIPs ≠ [] ∧ getClientIP r ∉ cfg.allowedIPs then
    .httpError 403 "Forbidden: IP address not allowed"
  else if cfg.allowedAppIDs ≠ [] ∧ headerGet r "X-App-ID" = "" then
    .httpError 403 "Forbidden: App ID is required"
  else if cfg.allowedAppIDs ≠ [] ∧ headerGet r "X-App-ID" ∉ cfg.allowedAppIDs then
    .httpError 403 "Forbidden: Invalid App ID"
  else if checkBearer ∧ ¬ (strIsPfx "Bearer " (headerGet r "Authorization") = true) then
    .httpError 401 "Unauthorized: API key is missing"
  else if checkBearer ∧ trimPfx "Bearer " (headerGet r "Authorization") ≠ cfg.clientAPIKey then
    .httpError 401 "Unauthorized: Invalid API key"
  else .handled tag

lemma serverRouter_unfold (cfg : ServerConfig) (r : HttpRequest) :
    serverRouter cfg r =
      WithLogger (WithCORS [] (WithIPFilter cfg.allowedIPs
        (WithAppIDAuth cfg.allowedAppIDs (serveMux cfg)))) r := rfl

/-- C8, counterexample.  A request to a protected route carrying a wrong
bearer token from an IP outside a configured non-empty allowlist is
rejected by the IP stage with 403 — not, as the claimed ordering
(bearer check first) would have it, by the token stage with 401. -/
theorem authGateway_order_counterexample :
    serverRouter ⟨"secret", ["9.9.9.9"], []⟩
        ⟨"POST", "/api/v1/upscale",
          [("Authorization", "Bearer wrong"), ("X-Forwarded-For", "1.1.1.1")],
          "8.8.8.8:1234"⟩
      = .httpError 403 "Forbidden: IP address not allowed"
    ∧ serverRouter ⟨"secret", ["9.9.9.9"], []⟩
        ⟨"POST", "/api/v1/upscale",
          [("Authorization", "Bearer wrong"), ("X-Forwarded-For", "1.1.1.1")],
          "8.8.8.8:1234"⟩
      ≠ .httpError 401 "Unauthorized: Invalid API key" := by
  constructor
  · decide
  · decide

lemma ipApp_stage (ips ids : List String) (inner : HttpRequest → HandlerResult)
    (r : HttpRequest) :
    WithIPFilter ips (WithAppIDAuth ids inner) r =
      if ips ≠ [] ∧ getClientIP r ∉ ips then
        .httpError 403 "Forbidden: IP address not allowed"
      else if ids ≠ [] ∧ headerGet r "X-App-ID" = "" then
        .httpError 403 "Forbidden: App ID is required"
      else if ids ≠ [] ∧ headerGet r "X-App-ID" ∉ ids then
        .httpError 403 "Forbidden: Invalid App ID"
      else inner r := by
  have happ : WithAppIDAuth ids inner r =
      if ids ≠ [] ∧ headerGet r "X-App-ID" = "" then
        .httpError 403 "Forbidden: App ID is required"
      else if ids ≠ [] ∧ headerGet r "X-App-ID" ∉ ids then
        .httpError 403 "Forbidden: Invalid App ID"
      else inner r := by
    cases ids with
    | nil => simp [WithAppIDAuth]
    | cons a as =>
      simp only [WithAppIDAuth, List.isEmpty_cons, Bool.false_eq_true, if_false]
      by_cases h0 : headerGet r "X-App-ID" = ""
      · simp [h0]
      · by_cases hmem : headerGet r "X-App-ID" ∈ a :: as
        · simp [h0, hmem]
        · simp [h0, hmem]
  cases ips with
  | nil => simp [WithIPFilter, happ]
  | cons a as =>
    simp only [WithIPFilter, List.isEmpty_cons, Bool.false_eq_true, if_false]
    by_cases hmem : getClientIP r ∈ a :: as
    · simp [hmem, happ]
    · simp [hmem]

lemma bearer_stage (key tag : String) (r : HttpRequest) :
    WithAuth key [] (fun _ => .handled tag) r =
      if ¬ (strIsPfx "Bearer " (headerGet r "Authorization") = true) then
        .httpError 401 "Unauthorized: API key is missing"
      else if trimPfx "Bearer " (headerGet r "Authorization") ≠ key then
        .httpError 401 "Unauthorized: Invalid API key"
      else .handled tag := by
  simp only [WithAuth, List.any_nil, Bool.false_eq_true, if_false]
  by_cases hb : strIsPfx "Bearer " (headerGet r "Authorization") = true
  · simp [hb]
  · have hb' : strIsPfx "Bearer " (headerGet r "Authorization") = false :=
      Bool.not_eq_true _ ▸ (by simpa using hb)
    simp [hb', hb]

/-- C8, as amended.  On a protected route (`/api/v1/upscale` taken as
representative) the authorization layers run in the order: (a) IP
allowlist membership when configured non-empty, then (b) app-id
allowlist membership when configured non-empty, then (c) the bearer
token check against the configured secret; the first failing stage
responds with its 403/401 error and no later stage or the handler runs.
`/health` passes through the IP and app-id layers but carries no bearer
check at all. -/
theorem authGateway_order_amended (cfg : ServerConfig) (r : HttpRequest)
    (hm : r.method ≠ "OPTIONS") :
    (r.path = "/api/v1/upscale" →
        serverRouter cfg r = gateStagesSpec cfg r true "upscale")
    ∧ (r.path = "/health" →
        serverRouter cfg r = gateStagesSpec cfg r false "health") := by
  constructor
  · intro hpath
    rw [serverRouter_unfold, WithLogger, WithCORS]
    rw [if_neg hm, ipApp_stage]
    have hmux : serveMux cfg r = WithAuth cfg.clientAPIKey [] (fun _ => .handled "upscale") r := by
      rw [serveMux, if_pos hpath]
    rw [hmux, bearer_stage, gateStagesSpec]
    simp only [true_and]
  · intro hpath
    rw [serverRouter_unfold, WithLogger, WithCORS]
    rw [if_neg hm, ipApp_stage]
    have hmux : serveMux cfg r = .handled "health" := by
      rw [serveMux]
      rw [if_neg (by rw [hpath]; decide), if_neg (by rw [hpath]; decide),
        if_neg (by rw [hpath]; decide), if_neg (by rw [hpath]; decide), if_pos hpath]
    rw [hmux, gateStagesSpec]
    simp only [Bool.false_eq_true, false_and, if_false]

/-- Witness for the amended C8: a fully authorized request (token right,
IP allowed, app-id allowed) reaches the upscale handler, and the same
gate lets a token-less health check through. -/
theorem authGateway_order_amended_witness :
    serverRouter ⟨"secret", ["1.1.1.1"], ["app1"]⟩
        ⟨"POST", "/api/v1/upscale",
          [("Authorization", "Bearer secret"), ("X-Forwarded-For", "1.1.1.1"),
            ("X-App-ID", "app1")], "8.8.8.8:1234"⟩
      = gateStagesSpec ⟨"secret", ["1.1.1.1"], ["app1"]⟩
          ⟨"POST", "/api/v1/upscale",
            [("Authorization", "Bearer secret"), ("X-Forwarded-For", "1.1.1.1"),
              ("X-App-ID", "app1")], "8.8.8.8:1234"⟩ true "upscale"
    ∧ gateStagesSpec ⟨"secret", ["1.1.1.1"], ["app1"]⟩
          ⟨"POST", "/api/v1/upscale",
            [("Authorization", "Bearer secret"), ("X-Forwarded-For", "1.1.1.1"),
              ("X-App-ID", "app1")], "8.8.8.8:1234"⟩ true "upscale"
      = .handled "upscale" :=
  ⟨(authGateway_order_amended ⟨"secret", ["1.1.1.1"], ["app1"]⟩
      ⟨"POST", "/api/v1/upscale",
        [("Authorization", "Bearer secret"), ("X-Forwarded-For", "1.1.1.1"),
          ("X-App-ID", "app1")], "8.8.8.8:1234"⟩ (by decide)).1 rfl,
    by decide⟩

/-! ## The cache fingerprint (C7)

`generateCacheKey` (api/handlers.go lines 665-676) hashes the image
bytes, renders the form data with `fmt.Sprintf("%v", formData)` — which
prints map keys in sorted order — and hashes the concatenation.  The
form data `map[string][]string` is modelled as an association list of
its entries (in an arbitrary iteration order, which is what a Go map
provides); `hashHex` abstracts `hex.EncodeToString(sha256.Sum256(·))`
— the theorem below holds for every hash function, hence for SHA-256
in particular. -/

/-- UTF-8 encoding of one code point, for `[]byte(s)`. -/
def charUTF8 (c : Char) : List Nat :=
  let n := c.toNat
  if n < 0x80 then [n]
  else if n < 0x800 then [0xC0 + n / 0x40, 0x80 + n % 0x40]
  else if n < 0x10000 then
    [0xE0 + n / 0x1000, 0x80 + (n / 0x40) % 0x40, 0x80 + n % 0x40]
  else
    [0xF0 + n / 0x40000, 0x80 + (n / 0x1000) % 0x40, 0x80 + (n / 0x40) % 0x40,
      0x80 + n % 0x40]

/-- `[]byte(s)`: the UTF-8 bytes of a string. -/
def strBytes (s : String) : List Nat := (s.data.map charUTF8).flatten

/-- `fmt`'s rendering of a `[]string` value: `[v1 v2 ...]`. -/
def fmtStringSlice (vs : List String) : String :=
  "[" ++ String.intercalate " " vs ++ "]"

/-- One `key:value` entry of a printed map. -/
def fmtFormEntry (e : String × List String) : String :=
  e.1 ++ ":" ++ fmtStringSlice e.2

/-- `fmt` prints map entries in ascending key order. -/
def sortFormEntries (form : List (String × List String)) : List (String × List String) :=
  form.mergeSort (fun a b => decide (a.1 ≤ b.1))

/-- `fmt.Sprintf("%v", formData)` for a `map[string][]string`. -/
def fmtForm (form : List (String × List String)) : String :=
  "map[" ++ String.intercalate " " ((sortFormEntries form).map fmtFormEntry) ++ "]"

/-- `generateCacheKey(imageData, formData)`:
`hex(sha256(imageData))` concatenated with the printed form, hashed
again.  `hashHex` stands for `hex.EncodeToString(sha256.Sum256(·))`. -/
def generateCacheKey (hashHex : List Nat → String) (imageData : List Nat)
    (form : List (String × List String)) : String :=
  let imageHash := hashHex imageData
  let formString := fmtForm form
  hashHex (strBytes (imageHash ++ formString))

lemma pairwise_lt_of_sorted_nodup (l : List (String × List String))
    (hp : l.Pairwise (fun a b => decide (a.1 ≤ b.1) = true))
    (hnd : (l.map Prod.fst).Nodup) :
    l.Pairwise (fun a b : String × List String => a.1 < b.1) := by
  have hne : l.Pairwise (fun a b : String × List String => a.1 ≠ b.1) :=
    List.pairwise_map.mp hnd
  exact (hp.and hne).imp (fun h => lt_of_le_of_ne (by simpa using h.1) h.2)

lemma sortFormEntries_eq_of_perm (f1 f2 : List (String × List String))
    (hperm : f1.Perm f2) (hnd : (f1.map Prod.fst).Nodup) :
    sortFormEntries f1 = sortFormEntries f2 := by
  have htrans : ∀ a b c : String × List String, decide (a.1 ≤ b.1) = true →
      decide (b.1 ≤ c.1) = true → decide (a.1 ≤ c.1) = true := by
    intro a b c h1 h2
    simp only [decide_eq_true_iff] at h1 h2 ⊢
    exact le_trans h1 h2
  have htotal : ∀ a b : String × List String,
      (decide (a.1 ≤ b.1) || decide (b.1 ≤ a.1)) = true := by
    intro a b
    simp only [Bool.or_eq_true, decide_eq_true_iff]
    exact le_total a.1 b.1
  have hs1 := List.sorted_mergeSort htrans htotal f1
  have hs2 := List.sorted_mergeSort htrans htotal f2
  have hperm1 : (sortFormEntries f1).Perm f1 := List.mergeSort_perm f1 _
  have hperm2 : (sortFormEntries f2).Perm f2 := List.mergeSort_perm f2 _
  have hndall : ∀ g : List (String × List String), g.Perm f1 →
      (g.map Prod.fst).Nodup := by
    intro g hg
    exact ((hg.map Prod.fst).nodup_iff).mpr hnd
  have hstrict1 : (sortFormEntries f1).Pairwise (fun a b => a.1 < b.1) :=
    pairwise_lt_of_sorted_nodup _ hs1 (hndall _ hperm1)
  have hstrict2 : (sortFormEntries f2).Pairwise (fun a b => a.1 < b.1) :=
    pairwise_lt_of_sorted_nodup _ hs2 (hndall _ (hperm2.trans hperm.symm))
  have hperm12 : (sortFormEntries f1).Perm (sortFormEntries f2) :=
    (hperm1.trans hperm).trans hperm2.symm
  exact @List.eq_of_perm_of_sorted (String × List String) (fun a b => a.1 < b.1)
    ⟨fun a b h h' => absurd (lt_trans h h') (lt_irrefl _)⟩ _ _ hperm12 hstrict1 hstrict2

/-- C7.  The cache fingerprint is deterministic and invariant under the
order in which the form parameters were supplied: for any hash function
(in particular SHA-256), any payload, and any two entry lists holding
exactly the same key/value bindings (permutations of each other, map
keys being unique), `generateCacheKey` produces the identical key. -/
theorem generateCacheKey_order_invariant (hashHex : List Nat → String)
    (imageData : List Nat) (f1 f2 : List (String × List String))
    (hperm : f1.Perm f2) (hnd : (f1.map Prod.fst).Nodup) :
    generateCacheKey hashHex imageData f1 = generateCacheKey hashHex imageData f2 := by
  rw [generateCacheKey, generateCacheKey, fmtForm, fmtForm,
    sortFormEntries_eq_of_perm f1 f2 hperm hnd]

/-- Witness for C7: two supply orders of the same two-parameter form
yield the same fingerprint (with a concrete stand-in hash). -/
theorem generateCacheKey_order_invariant_witness :
    ([("type", ["fast"]), ("seed", ["7"])] : List (String × List String)).Perm
        [("seed", ["7"]), ("type", ["fast"])]
    ∧ (([("type", ["fast"]), ("seed", ["7"])] : List (String × List String)).map
        Prod.fst).Nodup
    ∧ generateCacheKey (fun bs => String.mk (bs.map (fun _ => 'h'))) [1, 2, 3]
          [("type", ["fast"]), ("seed", ["7"])]
      = generateCacheKey (fun bs => String.mk (bs.map (fun _ => 'h'))) [1, 2, 3]
          [("seed", ["7"]), ("type", ["fast"])] :=
  ⟨by decide, by decide,
    generateCacheKey_order_invariant _ _ _ _ (by decide) (by decide)⟩

/-! ## JSON documents, `encoding/json` and `encoding/base64` (for C5, C6, C10)

`PollVideoResult` and `PollCreativeResult` read the upstream reply's
body with `json.Unmarshal` (into a typed struct and, in the video path's
second strategy, into a generic `map[string]interface{}`), base64-decode
payload fields with `base64.StdEncoding.DecodeString`, and finally
inspect the raw bytes.  The standard-library pieces are embedded below:
a small JSON parser over the body's characters, field decoding with
`encoding/json`'s conventions (absent field ⇒ zero value, `null` ⇒
no-op, wrong type ⇒ unmarshal error, later duplicate keys overwrite
earlier ones; our bodies use the tag spellings exactly, so
case-insensitive matching is the identity), and a standard base64
decoder (padding required, CR/LF ignored, `=` only at the end). -/

/-- A parsed JSON document.  Number lexemes are kept unparsed: no code
path the claims touch reads a numeric payload. -/
inductive Json where
  | null
  | bool (b : Bool)
  | num (lexeme : String)
  | str (s : String)
  | arr (elements : List Json)
  | obj (fields : List (String × Json))

/-- JSON insignificant whitespace. -/
def jsonWs (c : Char) : Bool := c = ' ' || c = '\t' || c = '\n' || c = '\r'

/-- Skip insignificant whitespace. -/
def skipWs (cs : List Char) : List Char := cs.dropWhile jsonWs

/-- One hexadecimal digit. -/
def hexVal (c : Char) : Option Nat :=
  if '0' ≤ c ∧ c ≤ '9' then some (c.toNat - '0'.toNat)
  else if 'a' ≤ c ∧ c ≤ 'f' then some (c.toNat - 'a'.toNat + 10)
  else if 'A' ≤ c ∧ c ≤ 'F' then some (c.toNat - 'A'.toNat + 10)
  else none

/-- Parse the remainder of a JSON string literal (after the opening
quote), handling the standard escapes. -/
def parseStrBody (fuel : Nat) (cs : List Char) (acc : List Char) :
    Option (String × List Char) :=
  match fuel, cs with
  | 0, _ => none
  | _, [] => none
  | f + 1, c :: rest =>
    if c = '"' then some (String.mk acc.reverse, rest)
    else if c = '\\' then
      match rest with
      | [] => none
      | e :: rest2 =>
        if e = '"' then parseStrBody f rest2 ('"' :: acc)
        else if e = '\\' then parseStrBody f rest2 ('\\' :: acc)
        else if e = '/' then parseStrBody f rest2 ('/' :: acc)
        else if e = 'b' then parseStrBody f rest2 ('\x08' :: acc)
        else if e = 'f' then parseStrBody f rest2 ('\x0c' :: acc)
        else if e = 'n' then parseStrBody f rest2 ('\n' :: acc)
        else if e = 'r' then parseStrBody f rest2 ('\r' :: acc)
        else if e = 't' then parseStrBody f rest2 ('\t' :: acc)
        else if e = 'u' then
          match rest2 with
          | h1 :: h2 :: h3 :: h4 :: rest3 =>
            match hexVal h1, hexVal h2, hexVal h3, hexVal h4 with
            | some v1, some v2, some v3, some v4 =>
              parseStrBody f rest3 (Char.ofNat (v1 * 4096 + v2 * 256 + v3 * 16 + v4) :: acc)
            | _, _, _, _ => none
          | _ => none
        else none
    else parseStrBody f rest (c :: acc)

/-- A character that may appear in a number lexeme. -/
def numChar (c : Char) : Bool :=
  c.isDigit || c = '-' || c = '+' || c = '.' || c = 'e' || c = 'E'

/-- Lex a number.  (The lexeme's internal syntax is not validated: no
claim reads a numeric payload.) -/
def parseNumLex (cs : List Char) : Option (String × List Char) :=
  let lex := cs.takeWhile numChar
  if lex.isEmpty then none else some (String.mk lex, cs.drop lex.length)

mutual

/-- Parse one JSON value. -/
def parseVal (fuel : Nat) (cs : List Char) : Option (Json × List Char) :=
  match fuel with
  | 0 => none
  | f + 1 =>
    match skipWs cs with
    | [] => none
    | 'n' :: 'u' :: 'l' :: 'l' :: rest => some (.null, rest)
    | 't' :: 'r' :: 'u' :: 'e' :: rest => some (.bool true, rest)
    | 'f' :: 'a' :: 'l' :: 's' :: 'e' :: rest => some (.bool false, rest)
    | '"' :: rest =>
      match parseStrBody (rest.length + 1) rest [] with
      | some (s, rest2) => some (.str s, rest2)
      | none => none
    | '[' :: rest =>
      (match skipWs rest with
      | ']' :: rest2 => some (.arr [], rest2)
      | other =>
        match parseElems f other with
        | some (es, rest2) => some (.arr es, rest2)
        | none => none)
    | '\x7b' :: rest =>
      (match skipWs rest with
      | '\x7d' :: rest2 => some (.obj [], rest2)
      | other =>
        match parseMembers f other with
        | some (ms, rest2) => some (.obj ms, rest2)
        | none => none)
    | c :: rest =>
      if c = '-' ∨ c.isDigit then
        match parseNumLex (c :: rest) with
        | some (lex, rest2) => some (.num lex, rest2)
        | none => none
      else none

/-- Parse the comma-separated elements of a non-empty array, up to and
including the closing bracket. -/
def parseElems (fuel : Nat) (cs : List Char) : Option (List Json × List Char) :=
  match fuel with
  | 0 => none
  | f + 1 =>
    match parseVal f cs with
    | none => none
    | some (v, rest) =>
      match skipWs rest with
      | ',' :: rest2 =>
        (match parseElems f rest2 with
        | some (vs, rest3) => some (v :: vs, rest3)
        | none => none)
      | ']' :: rest2 => some ([v], rest2)
      | _ => none

/-- Parse the members of a non-empty object, up to and including the
closing brace. -/
def parseMembers (fuel : Nat) (cs : List Char) :
    Option (List (String × Json) × List Char) :=
  match fuel with
  | 0 => none
  | f + 1 =>
    match skipWs cs with
    | '"' :: rest =>
      (match parseStrBody (rest.length + 1) rest [] with
      | none => none
      | some (k, rest2) =>
        match skipWs rest2 with
        | ':' :: rest3 =>
          (match parseVal f rest3 with
          | none => none
          | some (v, rest4) =>
            match skipWs rest4 with
            | ',' :: rest5 =>
              (match parseMembers f rest5 with
              | some (ms, rest6) => some ((k, v) :: ms, rest6)
              | none => none)
            | '\x7d' :: rest5 => some ([(k, v)], rest5)
            | _ => none)
        | _ => none)
    | _ => none

end

/-- `json.Unmarshal`'s syntactic part: parse the whole body as one JSON
value with nothing but whitespace after it. -/
def parseJson (s : String) : Option Json :=
  match parseVal (s.data.length + 1) s.data with
  | none => none
  | some (j, rest) => if (skipWs rest).isEmpty then some j else none

/-- Last binding for a key: with `encoding/json`, later duplicate keys
overwrite earlier ones, both in struct and in map decoding. -/
def jsonFieldLast (fields : List (String × Json)) (key : String) : Option Json :=
  (fields.reverse.find? (fun kv => kv.1 = key)).map (fun kv => kv.2)

/-- Decode a struct field tagged as a string: absent ⇒ `""`, `null` ⇒
no-op, a string ⇒ its value, anything else ⇒ unmarshal error. -/
def decodeStrField (fields : List (String × Json)) (key : String) : Option String :=
  match jsonFieldLast fields key with
  | none => some ""
  | some (.str s) => some s
  | some .null => some ""
  | some _ => none

/-- Decode a struct field tagged as a bool. -/
def decodeBoolField (fields : List (String × Json)) (key : String) : Option Bool :=
  match jsonFieldLast fields key with
  | none => some false
  | some (.bool b) => some b
  | some .null => some false
  | some _ => none

/-- `VideoResultResponse` (video.go lines 108-119): tags `finished`,
`video`, `mime_type`, `error`. -/
structure VideoResultResponse where
  finished : Bool
  video : String
  mimeType : String
  error : String
deriving DecidableEq, Repr

/-- `json.Unmarshal(body, &VideoResultResponse{...})`: the document must
be an object (or `null`, a no-op); fields decode per their tags. -/
def decodeVideoResultResponse (j : Json) : Option VideoResultResponse :=
  match j with
  | .null => some ⟨false, "", "", ""⟩
  | .obj fields =>
    (match decodeBoolField fields "finished", decodeStrField fields "video",
        decodeStrField fields "mime_type", decodeStrField fields "error" with
    | some f, some v, some t, some e => some ⟨f, v, t, e⟩
    | _, _, _, _ => none)
  | _ => none

/-- `UpscaleResultResponse` (video.go lines 579-588): tags `finished`,
`image`, `mime_type`, `error`. -/
structure UpscaleResultResponse where
  finished : Bool
  image : String
  mimeType : String
  error : String
deriving DecidableEq, Repr

/-- `json.Unmarshal` into `UpscaleResultResponse`. -/
def decodeUpscaleResultResponse (j : Json) : Option UpscaleResultResponse :=
  match j with
  | .null => some ⟨false, "", "", ""⟩
  | .obj fields =>
    (match decodeBoolField fields "finished", decodeStrField fields "image",
        decodeStrField fields "mime_type", decodeStrField fields "error" with
    | some f, some v, some t, some e => some ⟨f, v, t, e⟩
    | _, _, _, _ => none)
  | _ => none

/-- `ErrorResponse` (video.go lines 591-599), restricted to the fields
the 403 inspection reads.  (The optional `errors` array is never read by
the claims' code paths and our bodies never carry it.) -/
structure GoErrorResponse where
  id : String
  name : String
  message : String
deriving DecidableEq, Repr

/-- `json.Unmarshal` into `ErrorResponse`. -/
def decodeErrorResponse (j : Json) : Option GoErrorResponse :=
  match j with
  | .null => some ⟨"", "", ""⟩
  | .obj fields =>
    (match decodeStrField fields "id", decodeStrField fields "name",
        decodeStrField fields "message" with
    | some i, some n, some m => some ⟨i, n, m⟩
    | _, _, _ => none)
  | _ => none

/-- One standard base64 alphabet digit. -/
def b64Val (c : Char) : Option Nat :=
  if 'A' ≤ c ∧ c ≤ 'Z' then some (c.toNat - 'A'.toNat)
  else if 'a' ≤ c ∧ c ≤ 'z' then some (c.toNat - 'a'.toNat + 26)
  else if '0' ≤ c ∧ c ≤ '9' then some (c.toNat - '0'.toNat + 52)
  else if c = '+' then some 62
  else if c = '/' then some 63
  else none

/-- Decode four-character base64 groups; `=` padding only in the final
group.  An input whose length is not a multiple of four is an error. -/
def b64Quads : List Char → Option (List Nat)
  | [] => some []
  | a :: b :: c :: d :: rest =>
    (match b64Val a, b64Val b with
    | some va, some vb =>
      if c = '=' then
        (if d = '=' ∧ rest = [] then some [va * 4 + vb / 16] else none)
      else
        (match b64Val c with
        | some vc =>
          if d = '=' then
            (if rest = [] then some [va * 4 + vb / 16, vb % 16 * 16 + vc / 4] else none)
          else
            (match b64Val d, b64Quads rest with
            | some vd, some tail =>
              some ([va * 4 + vb / 16, vb % 16 * 16 + vc / 4, vc % 4 * 64 + vd] ++ tail)
            | _, _ => none)
        | none => none)
    | _, _ => none)
  | _ => none

/-- `base64.StdEncoding.DecodeString`: CR and LF are ignored wherever
they appear; otherwise strict four-character groups with padding. -/
def base64Decode (s : String) : Option (List Nat) :=
  b64Quads (s.data.filter (fun c => (c != '\r') && (c != '\n')))

/-! ## The poll pipeline of video.go (C5, C6, C10) -/

/-- The distinguished upstream-error shapes the non-200 handling
produces (video.go lines 303-323 and 777-798). -/
inductive UpstreamError where
  | contentPolicy (message : String)
  | forbidden (name message : String)
  | api (status : Nat) (name message : String)
  | contentPolicyFallback
  | apiRaw (status : Nat) (body : String)
deriving DecidableEq, Repr

/-- The `(resp, finished, err)` triple a poll call returns, by shape:
`pending` is `(nil, false, nil)`; `ok` is the success triple;
`extractionFailed` and `base64Failed` are `(nil, true, err)`;
`decodeFailed` and `processingError` are `(nil, false, err)`;
`statusError` covers the non-200 error returns. -/
inductive PollResult where
  | pending
  | ok (data : List Nat) (mimeType : String) (method : String)
  | extractionFailed
  | base64Failed
  | decodeFailed
  | processingError (message : String)
  | statusError (e : UpstreamError)
deriving DecidableEq, Repr

/-- The non-200 handling of `PollVideoResult` (video.go lines 303-323):
parse the body as an `ErrorResponse`; on a parseable 403 look for the
content-policy markers; otherwise a generic API error, with a 403
fallback when the body does not parse. -/
def classifyNon200Video (status : Nat) (body : String) : UpstreamError :=
  match (parseJson body).bind decodeErrorResponse with
  | some er =>
    if status = 403 then
      if er.name = "content_policy_violation" ∨ er.name = "safety_violation"
          ∨ er.message = "Your request has been rejected as a result of our safety system." then
        .contentPolicy er.message
      else .forbidden er.name er.message
    else .api status er.name er.message
  | none =>
    if status = 403 then .contentPolicyFallback else .apiRaw status body

/-- The non-200 handling of `PollCreativeResult` (video.go lines
777-798), textually duplicated in the source from the video path. -/
def classifyNon200Creative (status : Nat) (body : String) : UpstreamError :=
  match (parseJson body).bind decodeErrorResponse with
  | some er =>
    if status = 403 then
      if er.name = "content_policy_violation" ∨ er.name = "safety_violation"
          ∨ er.message = "Your request has been rejected as a result of our safety system." then
        .contentPolicy er.message
      else .forbidden er.name er.message
    else .api status er.name er.message
  | none =>
    if status = 403 then .contentPolicyFallback else .apiRaw status body

/-- The non-200 handling of the `ImageToVideo` *submit* (video.go lines
246-266): the same classification template again, with the same
content-policy markers on 403. -/
def classifyNon200SubmitVideo (status : Nat) (body : String) : UpstreamError :=
  match (parseJson body).bind decodeErrorResponse with
  | some er =>
    if status = 403 then
      if er.name = "content_policy_violation" ∨ er.name = "safety_violation"
          ∨ er.message = "Your request has been rejected as a result of our safety system." then
        .contentPolicy er.message
      else .forbidden er.name er.message
    else .api status er.name er.message
  | none =>
    if status = 403 then .contentPolicyFallback else .apiRaw status body

/-- The non-200 handling of the `Upscale` *submit* (video.go lines
707-728), serving the creative kind among others: the same
classification template once more. -/
def classifyNon200SubmitUpscale (status : Nat) (body : String) : UpstreamError :=
  match (parseJson body).bind decodeErrorResponse with
  | some er =>
    if status = 403 then
      if er.name = "content_policy_violation" ∨ er.name = "safety_violation"
          ∨ er.message = "Your request has been rejected as a result of our safety system." then
        .contentPolicy er.message
      else .forbidden er.name er.message
    else .api status er.name er.message
  | none =>
    if status = 403 then .contentPolicyFallback else .apiRaw status body

/-- `data:`-prefix stripping (video.go lines 369-375): only when the
split on commas yields exactly two parts. -/
def stripDataURI (s : String) : String :=
  if strIsPfx "data:" s then
    match splitChar ',' s with
    | [_, p] => p
    | _ => s
  else s

/-- The four `strings.ReplaceAll` calls removing spaces, LF, CR and tabs
(video.go lines 377-381). -/
def stripWSChars (s : String) : String :=
  String.mk (s.data.filter
    (fun c => (c != ' ') && (c != '\n') && (c != '\r') && (c != '\t')))

/-- Byte-list prefix test. -/
def bytesHasPfx : List Nat → List Nat → Bool
  | [], _ => true
  | _ :: _, [] => false
  | a :: as, b :: bs => (a == b) && bytesHasPfx as bs

/-- `strings.Contains` on byte lists. -/
def bytesContains (needle : List Nat) : List Nat → Bool
  | [] => needle.isEmpty
  | x :: xs => bytesHasPfx needle (x :: xs) || bytesContains needle xs

/-- Strategy 3's signature test (video.go line 421):
`len(body) > 5 && (string(body[:5]) == "AAAAI" || strings.Contains(string(body[:100]), "ftyp"))`.
Here `body[:100]` is clamped to the body; in Go the expression reads up
to 100 bytes from the slice's capacity (at least 512 for an
`io.ReadAll` result, NUL-filled past the length), and `"ftyp"` cannot
match inside the NUL padding, so the clamped read decides the same test.
The guarded version `mp4SigCheckGuarded` below makes the out-of-range
bound itself visible. -/
def mp4SigHolds (bodyBytes : List Nat) : Bool :=
  decide (5 < bodyBytes.length) &&
    ((bodyBytes.take 5 == strBytes "AAAAI")
      || bytesContains (strBytes "ftyp") (bodyBytes.take 100))

/-- Strategies 1-3 of `PollVideoResult` (video.go lines 362-426): the
standard base64 field, then the generic-document raw string, then the
binary signature; each runs only while no bytes have been extracted. -/
def extractVideoData (j : Json) (resp : VideoResultResponse) (bodyBytes : List Nat) :
    Option (List Nat × String) :=
  let data1 : List Nat :=
    if resp.video ≠ "" then
      (base64Decode (stripWSChars (stripDataURI resp.video))).getD []
    else []
  if data1 ≠ [] then some (data1, "standard base64 field")
  else
    let data2 : List Nat :=
      match j with
      | .obj fields =>
        (match jsonFieldLast fields "video" with
        | some (.str vs) => strBytes vs
        | _ => [])
      | _ => []
    if data2 ≠ [] then some (data2, "direct video field")
    else if mp4SigHolds bodyBytes then some (bodyBytes, "raw MP4 content")
    else none

/-- `PollVideoResult` (video.go lines 280-453) from the upstream reply's
status and body onward: 202 is the not-finished signal; other non-200
statuses classify as errors; on 200 the body is decoded, an `error`
field short-circuits, an unfinished document is a non-error pending
result, and a finished one goes through the extraction strategies. -/
def pollVideoResult (status : Nat) (body : String) : PollResult :=
  if status = 202 then .pending
  else if status ≠ 200 then .statusError (classifyNon200Video status body)
  else
    match parseJson body with
    | none => .decodeFailed
    | some j =>
      match decodeVideoResultResponse j with
      | none => .decodeFailed
      | some resp =>
        if resp.error ≠ "" then .processingError resp.error
        else if resp.finished = false then .pending
        else
          match extractVideoData j resp (strBytes body) with
          | some (data, method) => .ok data resp.mimeType method
          | none => .extractionFailed

/-- `PollCreativeResult` (video.go lines 760-825): *every* non-200
status, 202 included, goes through the error classification; on 200 the
`image` field is base64-decoded directly (no prefix stripping, no
fallback strategies). -/
def pollCreativeResult (status : Nat) (body : String) : PollResult :=
  if status ≠ 200 then .statusError (classifyNon200Creative status body)
  else
    match parseJson body with
    | none => .decodeFailed
    | some j =>
      match decodeUpscaleResultResponse j with
      | none => .decodeFailed
      | some resp =>
        if resp.error ≠ "" then .processingError resp.error
        else if resp.finished = false then .pending
        else
          match base64Decode resp.image with
          | none => .base64Failed
          | some data => .ok data resp.mimeType ""

/-- C5, counterexample.  An upstream 202 on the image-to-video poll is a
non-error pending result, but the same 202 on the creative-upscale poll
goes down the generic non-200 error path: the two polls do not treat
202 alike. -/
theorem pollCreative_202_counterexample :
    pollCreativeResult 202 "" = .statusError (.apiRaw 202 "")
    ∧ pollCreativeResult 202 "" ≠ .pending
    ∧ pollVideoResult 202 "" = .pending := by
  refine ⟨by decide, by decide, by decide⟩

/-- C5, as amended.  The image-to-video poll returns a non-error
not-finished result on 202 and classifies every other non-200 status as
an error; the creative-upscale poll classifies *every* non-200 status —
202 included — as an error; and each poll applies exactly the same
error classification as its submit path (`PollVideoResult` as
`ImageToVideo`, `PollCreativeResult` as `Upscale`) — in particular the
same content-policy-violation detection on parseable and unparseable
403 bodies as at submit — so the two polls also classify alike. -/
theorem poll_202_behavior_amended (status : Nat) (body : String) :
    (status = 202 → pollVideoResult status body = .pending)
    ∧ (status ≠ 200 → status ≠ 202 →
        pollVideoResult status body = .statusError (classifyNon200Video status body))
    ∧ (status ≠ 200 →
        pollCreativeResult status body = .statusError (classifyNon200Creative status body))
    ∧ classifyNon200Video status body = classifyNon200SubmitVideo status body
    ∧ classifyNon200Creative status body = classifyNon200SubmitUpscale status body
    ∧ classifyNon200Video status body = classifyNon200Creative status body := by
  refine ⟨?_, ?_, ?_, rfl, rfl, rfl⟩
  · intro h
    rw [pollVideoResult, if_pos h]
  · intro h200 h202
    rw [pollVideoResult, if_neg h202, if_pos h200]
  · intro h200
    rw [pollCreativeResult, if_pos h200]

/-- Witness for the amended C5 at concrete statuses: 503 errors on both
polls (with the classification shared with submit), 202 is pending on
the video poll, and a parseable content-policy 403 classifies on each
poll exactly as on its submit path. -/
theorem poll_202_behavior_amended_witness :
    pollVideoResult 503 "oops" = .statusError (classifyNon200Video 503 "oops")
    ∧ pollCreativeResult 503 "oops" = .statusError (classifyNon200Creative 503 "oops")
    ∧ pollVideoResult 202 "" = .pending
    ∧ classifyNon200Video 403 "\x7b\"name\":\"content_policy_violation\"\x7d"
      = classifyNon200SubmitVideo 403 "\x7b\"name\":\"content_policy_violation\"\x7d"
    ∧ classifyNon200Creative 403 "\x7b\"name\":\"content_policy_violation\"\x7d"
      = classifyNon200SubmitUpscale 403 "\x7b\"name\":\"content_policy_violation\"\x7d" :=
  ⟨(poll_202_behavior_amended 503 "oops").2.1 (by decide) (by decide),
    (poll_202_behavior_amended 503 "oops").2.2.1 (by decide),
    (poll_202_behavior_amended 202 "").1 rfl,
    (poll_202_behavior_amended 403 "\x7b\"name\":\"content_policy_violation\"\x7d").2.2.2.1,
    (poll_202_behavior_amended 403
      "\x7b\"name\":\"content_policy_violation\"\x7d").2.2.2.2.1⟩

/-- C6, counterexample.  For the poll body `{"video":"abc"}` the code
never reaches strategy 2: the document's absent `finished` flag decodes
to `false`, so `PollVideoResult` returns the non-error "not finished"
triple at video.go line 356 and no extraction at all runs. -/
theorem pollVideo_strategy2_counterexample :
    pollVideoResult 200 "\x7b\"video\":\"abc\"\x7d" = .pending
    ∧ pollVideoResult 200 "\x7b\"video\":\"abc\"\x7d"
        ≠ .ok (strBytes "abc") "" "direct video field" := by
  refine ⟨by decide, by decide⟩

/-- C6, as amended.  For the poll body `{"finished":true,"video":"abc"}`
— the same payload with the finished flag set, as in the repository's
own `video_direct.json` test fixture — strategy 1's base64 decode of
`"abc"` fails (length not a multiple of four), strategy 2's generic
parse reads the `video` field as a raw string, and the extraction
returns the literal bytes of `"abc"`. -/
theorem pollVideo_strategy2_amended :
    pollVideoResult 200 "\x7b\"finished\":true,\"video\":\"abc\"\x7d"
      = .ok (strBytes "abc") "" "direct video field" := by
  decide

/-- A guarded byte-slice `b[:n]`: `none` when the bound exceeds the
length. -/
def sliceTo (b : List Nat) (n : Nat) : Option (List Nat) :=
  if n ≤ b.length then some (b.take n) else none

/-- Strategy 3's signature test with each slice bound guarded, the
framing under which C10 states its safety property: the code's only
guard before `body[:5]` and `body[:100]` is `len(body) > 5` (video.go
line 421). -/
def mp4SigCheckGuarded (b : List Nat) : Option Bool :=
  if 5 < b.length then
    match sliceTo b 5, sliceTo b 100 with
    | some p5, some p100 =>
      some ((p5 == strBytes "AAAAI") || bytesContains (strBytes "ftyp") p100)
    | _, _ => none
  else some false

/-- C10, counterexample.  The 17-byte body `{"finished":true}` — valid
JSON that reaches strategy 3 because strategies 1 and 2 find nothing —
passes the code's `len(body) > 5` guard, yet the `body[:100]` bound
exceeds the body's length: the guarded slice fails, so the inspection
is *not* in range for every input length.  (In the running program the
out-of-range read is masked only by the ≥512-byte capacity of
`io.ReadAll`'s buffer.)  The same body indeed reaches strategy 3 and
fails extraction. -/
theorem mp4SigCheck_guard_counterexample :
    mp4SigCheckGuarded (strBytes "\x7b\"finished\":true\x7d") = none
    ∧ 5 < (strBytes "\x7b\"finished\":true\x7d").length
    ∧ (strBytes "\x7b\"finished\":true\x7d").length < 100
    ∧ pollVideoResult 200 "\x7b\"finished\":true\x7d" = .extractionFailed := by
  refine ⟨by decide, by decide, by decide, by decide⟩

/-- C10, as amended.  Under the code's `len(body) > 5` guard the 5-byte
inspection is always in range, but the 100-byte inspection is in range
exactly when the body holds at least 100 bytes: for every body with
`5 < len < 100` the guarded check fails, and for bodies of at least 100
bytes it runs to an answer. -/
theorem mp4SigCheck_guard_amended (b : List Nat) (h : 5 < b.length) :
    (sliceTo b 5).isSome
    ∧ ((sliceTo b 100).isSome ↔ 100 ≤ b.length)
    ∧ (b.length < 100 → mp4SigCheckGuarded b = none)
    ∧ (100 ≤ b.length → ∃ v, mp4SigCheckGuarded b = some v) := by
  refine ⟨?_, ?_, ?_, ?_⟩
  · rw [sliceTo, if_pos (by omega)]
    rfl
  · rw [sliceTo]
    split_ifs with h100
    · simpa using h100
    · simpa using h100
  · intro hlt
    rw [mp4SigCheckGuarded, if_pos h, sliceTo, if_pos (by omega), sliceTo, if_neg (by omega)]
  · intro hge
    rw [mp4SigCheckGuarded, if_pos h, sliceTo, if_pos (by omega), sliceTo, if_pos (by omega)]
    exact ⟨_, rfl⟩

/-- Witness for the amended C10 at a 120-byte body. -/
theorem mp4SigCheck_guard_amended_witness :
    (sliceTo (List.replicate 120 0) 5).isSome
    ∧ ((sliceTo (List.replicate 120 0) 100).isSome ↔ 100 ≤ (List.replicate 120 0).length)
    ∧ ((List.replicate 120 0).length < 100 → mp4SigCheckGuarded (List.replicate 120 0) = none)
    ∧ (100 ≤ (List.replicate 120 0).length →
        ∃ v, mp4SigCheckGuarded (List.replicate 120 0) = some v) :=
  mp4SigCheck_guard_amended (List.replicate 120 0) (by decide)
